import Mathlib

/-!
# Reviewer assignment service (project-avito)

A shallow embedding of `internal/domain`, `internal/storage/repository.go`,
`internal/service/manager.go` and `handleServiceError` of
`internal/api/handlers.go`. The deactivation cascade and
`MassDeactivateTeamUsers`, which `manager_test.go` calls and the source does not
contain, are modelled from §4.3 of the specification.

* The database behind the GORM repository is an explicit `Store` value that is
  threaded through every call; a call returns its Go result together with the
  store it leaves behind.
* The join table `pr_reviewers` is the list of reviewer ids kept with each
  pull request row. gorm `Save` only adds join rows, and `Preload` returns the
  reviewers in the order of the `users` table.
* Go `int` is `Int` (no arithmetic is performed on identifiers).
* `math/rand` is an explicit stream `rnd : Nat → Nat` handed to each call that
  draws random numbers, so a statement quantified over `rnd` covers every
  outcome of the generator.
-/

namespace Avito

/-! ## internal/domain/errors.go -/

/-- Sentinel error values of `errors.go`; `db` stands for any other error value
handed up by the database driver. -/
inductive Error where
  | ErrUserNotFound
  | ErrTeamNotFound
  | ErrPRNotFound
  | ErrPRAlreadyMerged
  | ErrReviewerNotActive
  | ErrNoReviewersFound
  | db (msg : String)
deriving DecidableEq, Repr

/-! ## internal/domain/models.go -/

def PRStatusOpen : String := "OPEN"

def PRStatusMerged : String := "MERGED"

structure Team where
  ID : Int
  Name : String
deriving DecidableEq, Repr

/-- The struct `domain.User`. The preloaded `Team` pointer is left out: no
function of the service reads it. -/
structure User where
  ID : Int
  Name : String
  IsActive : Bool
  TeamID : Int
deriving DecidableEq, Repr

/-- The struct `domain.PullRequest` as the service holds it in memory. -/
structure PullRequest where
  ID : Int
  Title : String
  Status : String
  AuthorID : Int
  Author : Option User
  Reviewers : List User
deriving DecidableEq, Repr

/-! ## The database -/

/-- One row of `pull_requests` together with its rows of the join table
`pr_reviewers` (the reviewer ids, in the order of their insertion). -/
structure PRRow where
  ID : Int
  Title : String
  Status : String
  AuthorID : Int
  ReviewerIDs : List Int
deriving DecidableEq, Repr

/-- Contents of the tables `teams`, `users`, `pull_requests` (with
`pr_reviewers`) and the next value of each table's id sequence. -/
structure Store where
  teams : List Team
  users : List User
  prs : List PRRow
  nextTeamID : Int
  nextUserID : Int
  nextPRID : Int
deriving DecidableEq, Repr

/-- The database right after `TRUNCATE ... RESTART IDENTITY`. -/
def Store.empty : Store :=
  { teams := [], users := [], prs := [], nextTeamID := 1, nextUserID := 1, nextPRID := 1 }

/-! ## internal/storage/repository.go -/

namespace Repository

/-- Go `Repository.CreateTeam`: insert; `Name` carries a unique constraint. The
primary key is assigned from the table's sequence. -/
def CreateTeam (s : Store) (team : Team) : Except Error Team × Store :=
  if s.teams.any (fun t => t.Name == team.Name) then
    (.error (.db "duplicate key value violates unique constraint"), s)
  else
    let t : Team := { team with ID := s.nextTeamID }
    (.ok t, { s with teams := s.teams ++ [t], nextTeamID := s.nextTeamID + 1 })

/-- Go `Repository.GetTeamByName`: the first team with that name, else `ErrTeamNotFound`. -/
def GetTeamByName (s : Store) (name : String) : Except Error Team :=
  match s.teams.find? (fun t => t.Name == name) with
  | some t => .ok t
  | none => .error .ErrTeamNotFound

/-- Go `Repository.CreateUser`: insert; `TeamID` is a foreign key into `teams`
(the constraint `CreateUser` of the service relies on). The primary key is
assigned from the table's sequence. -/
def CreateUser (s : Store) (user : User) : Except Error User × Store :=
  if s.teams.any (fun t => t.ID == user.TeamID) then
    let u : User := { user with ID := s.nextUserID }
    (.ok u, { s with users := s.users ++ [u], nextUserID := s.nextUserID + 1 })
  else
    (.error (.db "insert or update violates foreign key constraint"), s)

/-- Go `Repository.GetUserByID`: the user with that primary key, else `ErrUserNotFound`. -/
def GetUserByID (s : Store) (id : Int) : Except Error User :=
  match s.users.find? (fun u => u.ID == id) with
  | some u => .ok u
  | none => .error .ErrUserNotFound

/-- Go `Repository.DeactivateUser`: `UPDATE users SET is_active = false WHERE id = ?`;
no matching row is `ErrUserNotFound`. -/
def DeactivateUser (s : Store) (id : Int) : Except Error Unit × Store :=
  if s.users.any (fun u => u.ID == id) then
    (.ok (),
      { s with users := s.users.map (fun u => if u.ID == id then { u with IsActive := false } else u) })
  else
    (.error .ErrUserNotFound, s)

/-- Go `Repository.GetUsersByTeam`: `WHERE team_id = ? AND is_active = true`. -/
def GetUsersByTeam (s : Store) (teamID : Int) : List User :=
  s.users.filter (fun u => u.TeamID == teamID && u.IsActive == true)

/-- Go `Repository.CreatePR`: insert the row and its reviewer associations. The
primary key is assigned from the table's sequence. -/
def CreatePR (s : Store) (pr : PullRequest) : Except Error PullRequest × Store :=
  let p : PullRequest := { pr with ID := s.nextPRID }
  let row : PRRow :=
    { ID := p.ID, Title := p.Title, Status := p.Status, AuthorID := p.AuthorID,
      ReviewerIDs := p.Reviewers.map (fun r => r.ID) }
  (.ok p, { s with prs := s.prs ++ [row], nextPRID := s.nextPRID + 1 })

/-- Go `Repository.GetPRByID`: the row, with `Author` and `Reviewers` preloaded
from `users`. The join table has no position column: `Preload("Reviewers")`
selects the users whose id is in a join row of the pull request, and they come
in the order of the `users` table. -/
def GetPRByID (s : Store) (id : Int) : Except Error PullRequest :=
  match s.prs.find? (fun r => r.ID == id) with
  | none => .error .ErrPRNotFound
  | some row =>
    .ok { ID := row.ID, Title := row.Title, Status := row.Status, AuthorID := row.AuthorID,
          Author := s.users.find? (fun u => u.ID == row.AuthorID),
          Reviewers := s.users.filter (fun u => row.ReviewerIDs.contains u.ID) }

/-- One `INSERT INTO pr_reviewers ... ON CONFLICT DO NOTHING`: the join row of
user `uid` is added unless it is stored already. -/
def insertReviewer (ids : List Int) (uid : Int) : List Int :=
  if ids.contains uid then ids else ids ++ [uid]

/-- The inserts gorm issues for the `Reviewers` association of a saved pull
request, one per reviewer. -/
def insertReviewers (ids : List Int) (reviewers : List User) : List Int :=
  reviewers.foldl (fun acc u => insertReviewer acc u.ID) ids

/-- Go `Repository.UpdatePR`: gorm `Save`. The row with the primary key of `pr`
takes the column values of `pr`. For the `Reviewers` association `Save` inserts
the join rows of `pr.Reviewers` (ON CONFLICT DO NOTHING) and deletes no join
row: a stored reviewer that is absent from `pr.Reviewers` stays assigned. The
service only saves pull requests it has just loaded. -/
def UpdatePR (s : Store) (pr : PullRequest) : Store :=
  { s with prs := s.prs.map (fun r =>
      if r.ID == pr.ID then
        { ID := pr.ID, Title := pr.Title, Status := pr.Status, AuthorID := pr.AuthorID,
          ReviewerIDs := insertReviewers r.ReviewerIDs pr.Reviewers }
      else r) }

end Repository

/-! ## math/rand -/

/-- The callback of `rand.Shuffle` in `selectRandomReviewers`:
`users[i], users[j] = users[j], users[i]`. Both indices are in range in every
call made by `Shuffle`; out of range the list is returned as it is. -/
def swap {α : Type} (l : List α) (i j : Nat) : List α :=
  match l[i]?, l[j]? with
  | some a, some b => (l.set i b).set j a
  | _, _ => l

/-- The loop of `rand.Shuffle`: for `i` from `n - 1` down to `1`, draw
`j` in `[0, i]` and call `swap(i, j)`. `shuffleFrom rnd i l` runs the
iterations `i, i - 1, ..., 1`. -/
def shuffleFrom {α : Type} (rnd : Nat → Nat) : Nat → List α → List α
  | 0, l => l
  | i + 1, l => shuffleFrom rnd i (swap l (i + 1) (rnd (i + 1) % (i + 2)))

/-- Go `rand.Shuffle(len(users), swap)`. -/
def Shuffle {α : Type} (rnd : Nat → Nat) (l : List α) : List α :=
  shuffleFrom rnd (l.length - 1) l

/-! ## internal/service/manager.go -/

/-- Go `selectRandomReviewers(users, n)`: all of `users` when there are at most `n`,
else the first `n` after a shuffle. -/
def selectRandomReviewers (rnd : Nat → Nat) (users : List User) (n : Nat) : List User :=
  if users.length ≤ n then users
  else (Shuffle rnd users).take n

namespace Manager

/-- Go `Manager.CreateTeam`. -/
def CreateTeam (s : Store) (name : String) : Except Error Team × Store :=
  Repository.CreateTeam s { ID := 0, Name := name }

/-- Go `Manager.CreateUser`. The result of `GetTeamByName(ctx, "")` is discarded. -/
def CreateUser (s : Store) (name : String) (teamID : Int) : Except Error User × Store :=
  let _ := Repository.GetTeamByName s ""
  Repository.CreateUser s { ID := 0, Name := name, TeamID := teamID, IsActive := true }

/-- Go `Manager.DeleteUser`. -/
def DeleteUser (s : Store) (userID : Int) : Except Error Unit × Store :=
  Repository.DeactivateUser s userID

/-- Go `Manager.CreatePR`. -/
def CreatePR (s : Store) (rnd : Nat → Nat) (title : String) (authorID : Int) :
    Except Error PullRequest × Store :=
  match Repository.GetUserByID s authorID with
  | .error e => (.error e, s)
  | .ok author =>
    let candidates := Repository.GetUsersByTeam s author.TeamID
    let validCandidates := candidates.filter (fun c => c.ID != author.ID)
    let reviewers := selectRandomReviewers rnd validCandidates 2
    Repository.CreatePR s
      { ID := 0, Title := title, Status := PRStatusOpen, AuthorID := authorID,
        Author := none, Reviewers := reviewers }

/-- Go `Manager.MergePR`. -/
def MergePR (s : Store) (prID : Int) : Except Error PullRequest × Store :=
  match Repository.GetPRByID s prID with
  | .error e => (.error e, s)
  | .ok pr =>
    if pr.Status = PRStatusMerged then (.ok pr, s)
    else
      let pr1 : PullRequest := { pr with Status := PRStatusMerged }
      (.ok pr1, Repository.UpdatePR s pr1)

/-- The filter loop of `RerollReviewer`: candidates that are not the author,
not the reviewer being replaced and not a current reviewer. -/
def availableCandidates (pr : PullRequest) (oldReviewerID : Int) (candidates : List User) :
    List User :=
  let currentReviewerIDs := pr.Reviewers.map (fun r => r.ID)
  candidates.filter (fun c =>
    !(c.ID == pr.AuthorID) && !(c.ID == oldReviewerID) && !(currentReviewerIDs.contains c.ID))

/-- The loop of `RerollReviewer` that builds `newReviewersList`. -/
def newReviewersList (reviewers : List User) (oldReviewerID : Int) (newReviewer : User) :
    List User :=
  reviewers.map (fun r => if r.ID == oldReviewerID then newReviewer else r)

/-- Go `Manager.RerollReviewer`. `rnd 0` is the draw of `rand.Intn`. -/
def RerollReviewer (s : Store) (rnd : Nat → Nat) (prID : Int) (oldReviewerID : Int) :
    Except Error PullRequest × Store :=
  match Repository.GetPRByID s prID with
  | .error e => (.error e, s)
  | .ok pr =>
    if pr.Status = PRStatusMerged then (.error .ErrPRAlreadyMerged, s)
    else if !(pr.Reviewers.any (fun r => r.ID == oldReviewerID)) then (.error .ErrUserNotFound, s)
    else
      let loaded : Except Error User :=
        match pr.Author with
        | some a => .ok a
        | none => Repository.GetUserByID s pr.AuthorID
      match loaded with
      | .error e => (.error e, s)
      | .ok author =>
        let candidates := Repository.GetUsersByTeam s author.TeamID
        match availableCandidates pr oldReviewerID candidates with
        | [] => (.error .ErrNoReviewersFound, s)
        | c :: cs =>
          let newReviewer := (c :: cs).get ⟨rnd 0 % (cs.length + 1), Nat.mod_lt _ (Nat.succ_pos _)⟩
          let pr1 : PullRequest :=
            { pr with Author := some author,
                      Reviewers := newReviewersList pr.Reviewers oldReviewerID newReviewer }
          (.ok pr1, Repository.UpdatePR s pr1)

end Manager

/-! ## Sequences of service calls -/

/-- One call of the service, with the random stream it draws from. -/
inductive Op where
  | CreateTeam (name : String)
  | CreateUser (name : String) (teamID : Int)
  | DeleteUser (userID : Int)
  | CreatePR (rnd : Nat → Nat) (title : String) (authorID : Int)
  | MergePR (prID : Int)
  | RerollReviewer (rnd : Nat → Nat) (prID : Int) (oldReviewerID : Int)

/-- The store a call leaves behind (whether it succeeded or failed). -/
def step (s : Store) : Op → Store
  | .CreateTeam name => (Manager.CreateTeam s name).2
  | .CreateUser name teamID => (Manager.CreateUser s name teamID).2
  | .DeleteUser userID => (Manager.DeleteUser s userID).2
  | .CreatePR rnd title authorID => (Manager.CreatePR s rnd title authorID).2
  | .MergePR prID => (Manager.MergePR s prID).2
  | .RerollReviewer rnd prID oldReviewerID => (Manager.RerollReviewer s rnd prID oldReviewerID).2

/-- The store after a sequence of calls. -/
def run (s : Store) (ops : List Op) : Store :=
  ops.foldl step s

/-! ## Scenarios -/

/-- A random stream whose every draw is 0. -/
def rndZero : Nat → Nat := fun _ => 0

/-- The database of `TestPRAssignmentAndMerge` right before `CreatePR`: one team
with the author (id 1), two active users (ids 2, 3) and a deactivated one (id 4). -/
def storeAssignment : Store :=
  run Store.empty
    [.CreateTeam "Avengers", .CreateUser "Tony Stark" 1, .CreateUser "Steve Rogers" 1,
     .CreateUser "Bruce Banner" 1, .CreateUser "Thor (inactive)" 1, .DeleteUser 4]

/-- The database of `TestRerollReviewer` right before `RerollReviewer`: author 1,
reviewers 2 and 3 on pull request 1, candidate 4, deactivated user 5. -/
def storeReroll : Store :=
  let s := run Store.empty
    [.CreateTeam "Justice League", .CreateUser "Clark Kent" 1, .CreateUser "Diana Prince" 1,
     .CreateUser "Barry Allen" 1, .CreateUser "Victor Stone" 1, .CreateUser "Arthur Curry" 1,
     .DeleteUser 5]
  (Repository.CreatePR s
    { ID := 0, Title := "Test Reroll", Status := PRStatusOpen, AuthorID := 1, Author := none,
      Reviewers := [{ ID := 2, Name := "Diana Prince", IsActive := true, TeamID := 1 },
                    { ID := 3, Name := "Barry Allen", IsActive := true, TeamID := 1 }] }).2

/-- The database of `TestPRAssignmentAndMerge` after `CreatePR`: pull request 1
is OPEN with reviewers 2 and 3. -/
def storeOpenPR : Store :=
  (Manager.CreatePR storeAssignment rndZero "Fix the reactor" 1).2

/-- The database of `TestPRAssignmentAndMerge` after the first `MergePR`. -/
def storeMergedPR : Store :=
  (Manager.MergePR storeOpenPR 1).2

/-- Pull request 1 as loaded from `storeOpenPR`. -/
def loadedOpenPR : PullRequest :=
  { ID := 1, Title := "Fix the reactor", Status := PRStatusOpen, AuthorID := 1,
    Author := some { ID := 1, Name := "Tony Stark", IsActive := true, TeamID := 1 },
    Reviewers := [{ ID := 2, Name := "Steve Rogers", IsActive := true, TeamID := 1 },
                  { ID := 3, Name := "Bruce Banner", IsActive := true, TeamID := 1 }] }

/-- Pull request 1 as loaded from `storeReroll`: reviewers 2 and 3. -/
def loadedRerollPR : PullRequest :=
  { ID := 1, Title := "Test Reroll", Status := PRStatusOpen, AuthorID := 1,
    Author := some { ID := 1, Name := "Clark Kent", IsActive := true, TeamID := 1 },
    Reviewers := [{ ID := 2, Name := "Diana Prince", IsActive := true, TeamID := 1 },
                  { ID := 3, Name := "Barry Allen", IsActive := true, TeamID := 1 }] }

/-- The pull request that `RerollReviewer(pr 1, old 2)` returns in `storeReroll`:
user 4, the only eligible candidate, stands where reviewer 2 stood. -/
def rerolledPR : PullRequest :=
  { loadedRerollPR with
    Reviewers := [{ ID := 4, Name := "Victor Stone", IsActive := true, TeamID := 1 },
                  { ID := 3, Name := "Barry Allen", IsActive := true, TeamID := 1 }] }

/-! ## Deactivation cascade (spec §4.3) -/

namespace Manager

end Manager

/-- A random stream whose draw number `i` is `i`: `Shuffle` leaves every list as
it is. -/
def rndId : Nat → Nat := fun i => i

/-- Service calls that end with three stored reviewers: a team of four, a pull
request of user 1 (the shuffle driven by `rndId` assigns 2 and 3), and a reroll
of reviewer 2, whose only replacement is user 4. -/
def opsThreeReviewers : List Op :=
  [.CreateTeam "Justice League", .CreateUser "Clark Kent" 1, .CreateUser "Diana Prince" 1,
   .CreateUser "Barry Allen" 1, .CreateUser "Victor Stone" 1,
   .CreatePR rndId "Test Reroll" 1, .RerollReviewer rndZero 1 2]

/-- The database of `TestRerollReviewer` after `RerollReviewer(pr 1, old 2)`. -/
def storeRerolled : Store :=
  (Manager.RerollReviewer storeReroll rndZero 1 2).2

/-- Response written by `c.JSON`: the status code and the text of the `error`
field of the body. -/
structure Response where
  status : Nat
  message : String
deriving DecidableEq, Repr

def StatusNotFound : Nat := 404

def StatusConflict : Nat := 409

def StatusInternalServerError : Nat := 500

/-- Go `err.Error()`: the text given to `errors.New` in `errors.go`. -/
def Error.errorString : Error → String
  | .ErrUserNotFound => "user not found"
  | .ErrTeamNotFound => "team not found"
  | .ErrPRNotFound => "pull request not found"
  | .ErrPRAlreadyMerged => "pull request already merged"
  | .ErrReviewerNotActive => "reviewer is not active"
  | .ErrNoReviewersFound => "no eligible reviewers found"
  | .db msg => msg

/-- Go `handleServiceError`: the `switch err` over the sentinel errors. -/
def handleServiceError (err : Error) : Response :=
  match err with
  | .ErrUserNotFound | .ErrTeamNotFound | .ErrPRNotFound =>
    { status := StatusNotFound, message := "Resource not found" }
  | .ErrPRAlreadyMerged => { status := StatusConflict, message := err.errorString }
  | .ErrNoReviewersFound => { status := StatusConflict, message := err.errorString }
  | _ => { status := StatusInternalServerError, message := "Internal server error" }

/-- Candidates 2, 3 and 4 of `storeMass`, the active users of team 1 other than
the author. -/
def candidatesMass : List User :=
  [{ ID := 2, Name := "U A2 Reviewer", IsActive := true, TeamID := 1 },
   { ID := 3, Name := "U A3 Reviewer", IsActive := true, TeamID := 1 },
   { ID := 4, Name := "U A4 Safe", IsActive := true, TeamID := 1 }]

theorem set_perm_cons_eraseIdx {α : Type} (b : α) :
    ∀ (l : List α) (i : Nat), i < l.length → (l.set i b).Perm (b :: l.eraseIdx i)
  | [], _, h => by simp at h
  | a :: l, 0, _ => by simp
  | a :: l, i + 1, h => by
    have ih := set_perm_cons_eraseIdx b l i (by simpa using h)
    simp only [List.set_cons_succ, List.eraseIdx_cons_succ]
    exact (List.Perm.cons a ih).trans (List.Perm.swap b a _)

theorem perm_cons_eraseIdx_of_getElem? {α : Type} (a : α) :
    ∀ (l : List α) (i : Nat), l[i]? = some a → l.Perm (a :: l.eraseIdx i)
  | [], _, h => by simp at h
  | x :: l, 0, h => by
    simp at h
    subst h
    simp
  | x :: l, i + 1, h => by
    have ih := perm_cons_eraseIdx_of_getElem? a l i (by simpa using h)
    simp only [List.eraseIdx_cons_succ]
    exact (List.Perm.cons x ih).trans (List.Perm.swap a x _)

theorem swap_perm {α : Type} (l : List α) (i j : Nat) : (swap l i j).Perm l := by
  unfold swap
  cases hi : l[i]? with
  | none => simp
  | some a =>
    cases hj : l[j]? with
    | none => simp
    | some b =>
      simp only
      have hil : i < l.length := (List.getElem?_eq_some_iff.mp hi).1
      have hjl : j < l.length := (List.getElem?_eq_some_iff.mp hj).1
      by_cases hij : i = j
      · subst hij
        have hab : a = b := by simpa [hi] using hj
        subst hab
        have h1 : l.set i a = l := by
          apply List.ext_getElem? 
          intro n
          by_cases hn : i = n
          · subst hn; simp [List.getElem?_set, hil, hi]
          · simp [List.getElem?_set, hn]
        rw [h1, h1]
      · have p1 : (l.set i b).Perm (b :: l.eraseIdx i) := set_perm_cons_eraseIdx b l i hil
        have p2 : l.Perm (a :: l.eraseIdx i) := perm_cons_eraseIdx_of_getElem? a l i hi
        have hj2 : (l.set i b)[j]? = some b := by
          simp [List.getElem?_set, hij, hj]
        have p3 : (l.set i b).Perm (b :: (l.set i b).eraseIdx j) :=
          perm_cons_eraseIdx_of_getElem? b _ j hj2
        have p4 : ((l.set i b).set j a).Perm (a :: (l.set i b).eraseIdx j) :=
          set_perm_cons_eraseIdx a _ j (by simpa using hjl)
        have p5 : ((l.set i b).eraseIdx j).Perm (l.eraseIdx i) :=
          List.Perm.cons_inv (p3.symm.trans p1)
        exact p4.trans ((List.Perm.cons a p5).trans p2.symm)

theorem shuffleFrom_perm {α : Type} (rnd : Nat → Nat) :
    ∀ (i : Nat) (l : List α), (shuffleFrom rnd i l).Perm l
  | 0, l => by simp [shuffleFrom]
  | i + 1, l => by
    simp only [shuffleFrom]
    exact (shuffleFrom_perm rnd i _).trans (swap_perm l _ _)

theorem Shuffle_perm {α : Type} (rnd : Nat → Nat) (l : List α) : (Shuffle rnd l).Perm l :=
  shuffleFrom_perm rnd _ l


theorem find?_ID_eq {us : List User} {id : Int} {u : User}
    (h : us.find? (fun u => u.ID == id) = some u) : u ∈ us ∧ u.ID = id := by
  refine ⟨List.mem_of_find?_eq_some h, ?_⟩
  have := List.find?_some h
  simpa using this

theorem selectRandomReviewers_perm_sublist (rnd : Nat → Nat) (us : List User) (n : Nat) :
    ∃ p : List User, p.Perm us ∧ (selectRandomReviewers rnd us n).Sublist p := by
  unfold selectRandomReviewers
  split
  · exact ⟨us, List.Perm.refl _, List.Sublist.refl _⟩
  · exact ⟨Shuffle rnd us, Shuffle_perm rnd us, List.take_sublist _ _⟩

theorem selectRandomReviewers_length (rnd : Nat → Nat) (us : List User) (n : Nat) :
    (selectRandomReviewers rnd us n).length = min n us.length := by
  unfold selectRandomReviewers
  split
  · rename_i h; omega
  · rename_i h
    rw [List.length_take, (Shuffle_perm rnd us).length_eq]

theorem selectRandomReviewers_subset (rnd : Nat → Nat) (us : List User) (n : Nat) :
    selectRandomReviewers rnd us n ⊆ us := by
  obtain ⟨p, hp, hs⟩ := selectRandomReviewers_perm_sublist rnd us n
  exact fun x hx => hp.subset (hs.subset hx)

theorem selectRandomReviewers_nodup_ids (rnd : Nat → Nat) (us : List User) (n : Nat)
    (h : (us.map (fun u => u.ID)).Nodup) :
    ((selectRandomReviewers rnd us n).map (fun u => u.ID)).Nodup := by
  obtain ⟨p, hp, hs⟩ := selectRandomReviewers_perm_sublist rnd us n
  exact List.Nodup.sublist (hs.map _) (((hp.map _).nodup_iff).mpr h)

theorem GetPRByID_ok {s : Store} {id : Int} {pr : PullRequest}
    (h : Repository.GetPRByID s id = .ok pr) :
    ∃ row ∈ s.prs, row.ID = id ∧
      pr = { ID := row.ID, Title := row.Title, Status := row.Status, AuthorID := row.AuthorID,
             Author := s.users.find? (fun u => u.ID == row.AuthorID),
             Reviewers := s.users.filter (fun u => row.ReviewerIDs.contains u.ID) } := by
  unfold Repository.GetPRByID at h
  cases hf : s.prs.find? (fun r => r.ID == id) with
  | none => simp [hf] at h
  | some row =>
    simp only [hf, Except.ok.injEq] at h
    refine ⟨row, List.mem_of_find?_eq_some hf, ?_, h.symm⟩
    have := List.find?_some hf
    simpa using this

theorem GetPRByID_author {s : Store} {id : Int} {pr : PullRequest}
    (h : Repository.GetPRByID s id = .ok pr) :
    (match pr.Author with
      | some a => Except.ok a
      | none => Repository.GetUserByID s pr.AuthorID) = Repository.GetUserByID s pr.AuthorID := by
  obtain ⟨row, _, _, rfl⟩ := GetPRByID_ok h
  unfold Repository.GetUserByID
  simp only
  cases s.users.find? (fun u => u.ID == row.AuthorID) <;> rfl

theorem RerollReviewer_cases (s : Store) (rnd : Nat → Nat) (prID oldID : Int) :
    (∃ e, Manager.RerollReviewer s rnd prID oldID = (.error e, s)) ∨
    (∃ pr author Y, Repository.GetPRByID s prID = .ok pr ∧ pr.Status ≠ PRStatusMerged ∧
      (∃ r ∈ pr.Reviewers, r.ID = oldID) ∧
      Repository.GetUserByID s pr.AuthorID = .ok author ∧
      Y ∈ Manager.availableCandidates pr oldID (Repository.GetUsersByTeam s author.TeamID) ∧
      Manager.RerollReviewer s rnd prID oldID =
        (.ok { pr with Author := some author,
                       Reviewers := Manager.newReviewersList pr.Reviewers oldID Y },
         Repository.UpdatePR s
           { pr with Author := some author,
                     Reviewers := Manager.newReviewersList pr.Reviewers oldID Y })) := by
  unfold Manager.RerollReviewer
  cases hget : Repository.GetPRByID s prID with
  | error e => exact Or.inl ⟨e, rfl⟩
  | ok pr =>
    simp only
    by_cases hm : pr.Status = PRStatusMerged
    · exact Or.inl ⟨.ErrPRAlreadyMerged, by simp [hm]⟩
    · by_cases hf : (pr.Reviewers.any (fun r => r.ID == oldID)) = true
      · simp only [hm, if_false, hf, Bool.not_true, Bool.false_eq_true]
        rw [GetPRByID_author hget]
        cases ha : Repository.GetUserByID s pr.AuthorID with
        | error e => exact Or.inl ⟨e, rfl⟩
        | ok author =>
          simp only
          cases hc : Manager.availableCandidates pr oldID
              (Repository.GetUsersByTeam s author.TeamID) with
          | nil => exact Or.inl ⟨_, rfl⟩
          | cons c cs =>
            refine Or.inr ⟨pr, author, _, rfl, hm, ?_, ha, ?_, rfl⟩
            · simpa using hf
            · rw [hc]
              exact List.get_mem _ _ _
      · exact Or.inl ⟨.ErrUserNotFound, by simp [hm, hf]⟩


theorem CreatePR_error {s : Store} {authorID : Int} {e : Error}
    (h : Repository.GetUserByID s authorID = .error e) (rnd : Nat → Nat) (title : String) :
    Manager.CreatePR s rnd title authorID = (.error e, s) := by
  simp [Manager.CreatePR, h]

theorem CreatePR_ok {s : Store} {authorID : Int} {author : User}
    (h : Repository.GetUserByID s authorID = .ok author) (rnd : Nat → Nat) (title : String) :
    Manager.CreatePR s rnd title authorID =
      (.ok { ID := s.nextPRID, Title := title, Status := PRStatusOpen, AuthorID := authorID,
             Author := none,
             Reviewers := selectRandomReviewers rnd
               ((Repository.GetUsersByTeam s author.TeamID).filter (fun c => c.ID != author.ID)) 2 },
       { s with
          prs := s.prs ++
            [{ ID := s.nextPRID, Title := title, Status := PRStatusOpen, AuthorID := authorID,
               ReviewerIDs := (selectRandomReviewers rnd
                 ((Repository.GetUsersByTeam s author.TeamID).filter
                   (fun c => c.ID != author.ID)) 2).map (fun r => r.ID) }],
          nextPRID := s.nextPRID + 1 }) := by
  simp [Manager.CreatePR, h, Repository.CreatePR]

theorem GetUserByID_ok {s : Store} {id : Int} {u : User}
    (h : Repository.GetUserByID s id = .ok u) : u ∈ s.users ∧ u.ID = id := by
  unfold Repository.GetUserByID at h
  cases hf : s.users.find? (fun u => u.ID == id) with
  | none => simp [hf] at h
  | some v =>
    simp only [hf, Except.ok.injEq] at h
    subst h
    exact find?_ID_eq hf

theorem mem_availableCandidates {pr : PullRequest} {oldID : Int} {cands : List User} {Y : User}
    (h : Y ∈ Manager.availableCandidates pr oldID cands) :
    Y ∈ cands ∧ Y.ID ≠ pr.AuthorID ∧ Y.ID ≠ oldID ∧ Y.ID ∉ pr.Reviewers.map (fun r => r.ID) := by
  simpa [Manager.availableCandidates, and_assoc] using h

theorem insertReviewers_of_subset (rs : List User) :
    ∀ ids : List Int, (∀ u ∈ rs, u.ID ∈ ids) → Repository.insertReviewers ids rs = ids := by
  induction rs with
  | nil => intro ids _; rfl
  | cons r rs ih =>
    intro ids h
    have hr : ids.contains r.ID = true := by
      simpa using h r (List.mem_cons_self _ _)
    simp only [Repository.insertReviewers, List.foldl_cons, Repository.insertReviewer, hr, if_true]
    exact ih ids (fun u hu => h u (List.mem_cons_of_mem _ hu))

theorem find?_UpdatePR (s : Store) (pr : PullRequest) (id : Int) :
    (Repository.UpdatePR s pr).prs.find? (fun r => r.ID == id) =
      (s.prs.find? (fun r => r.ID == id)).map (fun r =>
        if r.ID == pr.ID then
          { ID := pr.ID, Title := pr.Title, Status := pr.Status, AuthorID := pr.AuthorID,
            ReviewerIDs := Repository.insertReviewers r.ReviewerIDs pr.Reviewers }
        else r) := by
  simp only [Repository.UpdatePR, List.find?_map]
  congr 2
  funext r
  simp only [Function.comp]
  by_cases h : r.ID = pr.ID
  · simp [h]
  · simp [h]

theorem GetPRByID_UpdatePR_status {s : Store} {id : Int} {pr : PullRequest}
    (hget : Repository.GetPRByID s id = .ok pr) (st : String) :
    Repository.GetPRByID (Repository.UpdatePR s { pr with Status := st }) id
      = .ok { pr with Status := st } := by
  obtain ⟨row, _, _, hpr⟩ := GetPRByID_ok hget
  unfold Repository.GetPRByID at hget ⊢
  rw [find?_UpdatePR]
  cases hf : s.prs.find? (fun r => r.ID == id) with
  | none => simp [hf] at hget
  | some row1 =>
    simp only [hf, Except.ok.injEq] at hget
    subst hget
    have hsub : Repository.insertReviewers row1.ReviewerIDs
        (s.users.filter (fun u => decide (u.ID ∈ row1.ReviewerIDs))) = row1.ReviewerIDs := by
      apply insertReviewers_of_subset
      intro u hu
      simpa using (List.mem_filter.mp hu).2
    simp [hsub, Repository.UpdatePR]

theorem MergePR_of_merged {s : Store} {id : Int} {pr : PullRequest}
    (hget : Repository.GetPRByID s id = .ok pr) (hm : pr.Status = PRStatusMerged) :
    Manager.MergePR s id = (.ok pr, s) := by
  simp [Manager.MergePR, hget, hm]

theorem RerollReviewer_ok_inv {s s' : Store} {rnd : Nat → Nat} {prID oldID : Int}
    {pr pr' : PullRequest} (hget : Repository.GetPRByID s prID = .ok pr)
    (h : Manager.RerollReviewer s rnd prID oldID = (.ok pr', s')) :
    ∃ author Y, pr.Status ≠ PRStatusMerged ∧ (∃ r ∈ pr.Reviewers, r.ID = oldID) ∧
      Repository.GetUserByID s pr.AuthorID = .ok author ∧
      Y ∈ Manager.availableCandidates pr oldID (Repository.GetUsersByTeam s author.TeamID) ∧
      pr' = { pr with Author := some author,
                      Reviewers := Manager.newReviewersList pr.Reviewers oldID Y } ∧
      s' = Repository.UpdatePR s pr' := by
  rcases RerollReviewer_cases s rnd prID oldID with
    ⟨e, he⟩ | ⟨pr0, author, Y, hget0, hm, hr, ha, hY, he⟩
  · rw [he] at h
    simp at h
  · rw [hget] at hget0
    cases hget0
    rw [he] at h
    simp only [Prod.mk.injEq, Except.ok.injEq] at h
    exact ⟨author, Y, hm, hr, ha, hY, h.1.symm, by rw [← h.1]; exact h.2.symm⟩

theorem RerollReviewer_open {s : Store} {prID oldID : Int} {pr : PullRequest} {author : User}
    (rnd : Nat → Nat) (hget : Repository.GetPRByID s prID = .ok pr)
    (hm : pr.Status ≠ PRStatusMerged) (hold : oldID ∈ pr.Reviewers.map (fun r => r.ID))
    (ha : Repository.GetUserByID s pr.AuthorID = .ok author) :
    (Manager.availableCandidates pr oldID (Repository.GetUsersByTeam s author.TeamID) = [] ∧
      Manager.RerollReviewer s rnd prID oldID = (.error .ErrNoReviewersFound, s)) ∨
    (∃ pr', Manager.availableCandidates pr oldID (Repository.GetUsersByTeam s author.TeamID) ≠ [] ∧
      Manager.RerollReviewer s rnd prID oldID = (.ok pr', Repository.UpdatePR s pr')) := by
  have hany : (pr.Reviewers.any (fun r => r.ID == oldID)) = true := by
    simpa using hold
  unfold Manager.RerollReviewer
  simp only [hget, hm, if_false, hany, Bool.not_true, Bool.false_eq_true]
  rw [GetPRByID_author hget]
  simp only [ha]
  cases hc : Manager.availableCandidates pr oldID (Repository.GetUsersByTeam s author.TeamID) with
  | nil => exact Or.inl ⟨rfl, rfl⟩
  | cons c cs => exact Or.inr ⟨_, by simp, rfl⟩

theorem open_ne_merged {pr : PullRequest} (h : pr.Status = PRStatusOpen) :
    pr.Status ≠ PRStatusMerged := by
  rw [h]
  decide

theorem selectRandomReviewers_nil (rnd : Nat → Nat) (n : Nat) :
    selectRandomReviewers rnd [] n = [] := by
  simp [selectRandomReviewers]

/-- C1 is broken by the code: the service calls `opsThreeReviewers` (create a
team of four, CreatePR, RerollReviewer) lead from the empty store to a store
whose pull request 1 has the three reviewer ids 2, 3 and 4, because `Save` adds
the join row of the replacement and deletes none; loading the pull request
returns three reviewers. -/
theorem reachable_three_reviewers :
    (∃ r ∈ (run Store.empty opsThreeReviewers).prs, r.ID = 1 ∧ r.ReviewerIDs = [2, 3, 4]) ∧
    (¬ ∀ r ∈ (run Store.empty opsThreeReviewers).prs, r.ReviewerIDs.length ≤ 2) ∧
    (∃ pr, Repository.GetPRByID (run Store.empty opsThreeReviewers) 1 = .ok pr ∧
      pr.Reviewers.length = 3) := by
  refine ⟨by decide, by decide, ⟨_, rfl, rfl⟩⟩

/-- C5 is broken by the code: in the scenario of `TestRerollReviewer` (reviewers
2 and 3, X = 2, Y = 4) the returned pull request has the reviewer ids 4 and 3,
but the stored set is 2, 3 and 4: it is the previous set with Y added, X is not
removed and the size grows from 2 to 3. -/
theorem RerollReviewer_stored_set_keeps_old :
    Repository.GetPRByID storeReroll 1 = .ok loadedRerollPR ∧
    Manager.RerollReviewer storeReroll rndZero 1 2 = (.ok rerolledPR, storeRerolled) ∧
    rerolledPR.Reviewers.map (fun r => r.ID) = [4, 3] ∧
    (∃ r ∈ storeRerolled.prs, r.ID = 1 ∧ r.ReviewerIDs = [2, 3, 4]) ∧
    (¬ ∃ r ∈ storeRerolled.prs, r.ID = 1 ∧
        r.ReviewerIDs.toFinset
          = ((loadedRerollPR.Reviewers.map (fun r => r.ID)).toFinset \ {2}) ∪ {4}) ∧
    (¬ ∃ r ∈ storeRerolled.prs, r.ID = 1 ∧
        r.ReviewerIDs.toFinset.card
          = (loadedRerollPR.Reviewers.map (fun r => r.ID)).toFinset.card) := by
  refine ⟨rfl, rfl, rfl, by decide, by decide, by decide⟩

/-- C2: for a stored author, CreatePR succeeds, appends an OPEN pull request of
that author to the store (users and teams untouched), every reviewer is a
stored active user of the author's team other than the author, and the number
of reviewers is min(2, number of active users of the author's team other than
the author). -/
theorem CreatePR_assigns_active_teammates (s : Store) (rnd : Nat → Nat) (title : String)
    (authorID : Int) (author : User) (h : Repository.GetUserByID s authorID = .ok author) :
    ∃ pr s', Manager.CreatePR s rnd title authorID = (.ok pr, s') ∧
      pr.Status = PRStatusOpen ∧ pr.AuthorID = authorID ∧
      s'.prs = s.prs ++ [{ ID := pr.ID, Title := title, Status := PRStatusOpen,
                           AuthorID := authorID,
                           ReviewerIDs := pr.Reviewers.map (fun r => r.ID) }] ∧
      s'.users = s.users ∧ s'.teams = s.teams ∧
      (∀ r ∈ pr.Reviewers,
        r ∈ s.users ∧ r.IsActive = true ∧ r.TeamID = author.TeamID ∧ r.ID ≠ authorID) ∧
      pr.Reviewers.length =
        min 2 (s.users.filter (fun u =>
          u.IsActive && u.TeamID == author.TeamID && u.ID != authorID)).length := by
  refine ⟨_, _, CreatePR_ok h rnd title, rfl, rfl, rfl, rfl, rfl, ?_, ?_⟩
  · intro r hr
    have hmem := selectRandomReviewers_subset _ _ _ hr
    simp only [Repository.GetUsersByTeam, List.mem_filter, bne_iff_ne, ne_eq,
      Bool.and_eq_true, beq_iff_eq] at hmem
    refine ⟨hmem.1.1, hmem.1.2.2, hmem.1.2.1, ?_⟩
    rw [← (GetUserByID_ok h).2]
    exact hmem.2
  · simp only [selectRandomReviewers_length, Repository.GetUsersByTeam, List.filter_filter]
    rw [(GetUserByID_ok h).2]
    congr 2
    apply List.filter_congr
    intro u _
    cases u.IsActive <;> simp [Bool.and_comm]

/-- C2 at the scenario of `TestPRAssignmentAndMerge` (author, 2 active users,
1 inactive user): exactly 2 reviewers are assigned. -/
theorem CreatePR_assigns_active_teammates_witness :
    Repository.GetUserByID storeAssignment 1
        = .ok { ID := 1, Name := "Tony Stark", IsActive := true, TeamID := 1 } ∧
      ∃ pr s', Manager.CreatePR storeAssignment rndZero "Fix the reactor" 1 = (.ok pr, s') ∧
        pr.Status = PRStatusOpen ∧ pr.Reviewers.length = 2 ∧
        ∀ r ∈ pr.Reviewers, r.IsActive = true ∧ r.ID ≠ 1 := by
  have hu : Repository.GetUserByID storeAssignment 1
      = .ok { ID := 1, Name := "Tony Stark", IsActive := true, TeamID := 1 } := rfl
  refine ⟨hu, ?_⟩
  obtain ⟨pr, s', h1, h2, _, _, _, _, h7, h8⟩ :=
    CreatePR_assigns_active_teammates storeAssignment rndZero "Fix the reactor" 1 _ hu
  refine ⟨pr, s', h1, h2, ?_, fun r hr => ⟨(h7 r hr).2.1, (h7 r hr).2.2.2⟩⟩
  rw [h8]
  decide

/-- C3: MergePR is idempotent. For a stored pull request the first MergePR
succeeds with status MERGED, and a second MergePR on the store it leaves
returns no error, returns the same pull request with status MERGED, and leaves
that store unchanged. -/
theorem MergePR_idempotent (s : Store) (prID : Int) (pr : PullRequest)
    (hget : Repository.GetPRByID s prID = .ok pr) :
    ∃ pr1 s1, Manager.MergePR s prID = (.ok pr1, s1) ∧ pr1.Status = PRStatusMerged ∧
      Manager.MergePR s1 prID = (.ok pr1, s1) := by
  by_cases hm : pr.Status = PRStatusMerged
  · exact ⟨pr, s, MergePR_of_merged hget hm, hm, MergePR_of_merged hget hm⟩
  · have h1 : Manager.MergePR s prID =
        (.ok { pr with Status := PRStatusMerged },
         Repository.UpdatePR s { pr with Status := PRStatusMerged }) := by
      simp [Manager.MergePR, hget, hm]
    refine ⟨_, _, h1, rfl, ?_⟩
    exact MergePR_of_merged (GetPRByID_UpdatePR_status hget PRStatusMerged) rfl

/-- C3 at pull request 1 of `TestPRAssignmentAndMerge`. -/
theorem MergePR_idempotent_witness :
    Repository.GetPRByID storeOpenPR 1 = .ok loadedOpenPR ∧
      ∃ pr1 s1, Manager.MergePR storeOpenPR 1 = (.ok pr1, s1) ∧
        pr1.Status = PRStatusMerged ∧ Manager.MergePR s1 1 = (.ok pr1, s1) :=
  ⟨rfl, MergePR_idempotent storeOpenPR 1 loadedOpenPR rfl⟩

/-- C4: on a stored pull request whose status is MERGED, RerollReviewer fails
with ErrPRAlreadyMerged for every oldReviewerID (reviewer or not) and every
random draw, and returns the store unchanged. -/
theorem RerollReviewer_merged_fails (s : Store) (rnd : Nat → Nat) (prID oldReviewerID : Int)
    (pr : PullRequest) (hget : Repository.GetPRByID s prID = .ok pr)
    (hm : pr.Status = PRStatusMerged) :
    Manager.RerollReviewer s rnd prID oldReviewerID = (.error .ErrPRAlreadyMerged, s) := by
  simp [Manager.RerollReviewer, hget, hm]

/-- C4 at the merged pull request 1 of `TestPRAssignmentAndMerge`, rerolling
its first reviewer. -/
theorem RerollReviewer_merged_fails_witness :
    Repository.GetPRByID storeMergedPR 1 = .ok { loadedOpenPR with Status := PRStatusMerged } ∧
      PRStatusMerged = PRStatusMerged ∧
      Manager.RerollReviewer storeMergedPR rndZero 1 2
        = (.error .ErrPRAlreadyMerged, storeMergedPR) :=
  ⟨rfl, rfl, RerollReviewer_merged_fails storeMergedPR rndZero 1 2 _ rfl rfl⟩

/-- C7 fails as stated: on the OPEN pull request 1 of `TestPRAssignmentAndMerge`
(reviewers 2 and 3), rerolling user 4, who is not a reviewer, does not fail with
an error distinct from the not-found errors: the error is ErrUserNotFound. -/
theorem RerollReviewer_not_assigned_counterexample :
    Repository.GetPRByID storeOpenPR 1 = .ok loadedOpenPR ∧
      loadedOpenPR.Status = PRStatusOpen ∧
      (4 : Int) ∉ loadedOpenPR.Reviewers.map (fun r => r.ID) ∧
      ¬ ∃ e : Error, (Manager.RerollReviewer storeOpenPR rndZero 1 4).1 = .error e ∧
          e ≠ .ErrUserNotFound ∧ e ≠ .ErrTeamNotFound ∧ e ≠ .ErrPRNotFound ∧
          e ≠ .ErrPRAlreadyMerged ∧ e ≠ .ErrNoReviewersFound := by
  refine ⟨rfl, rfl, by decide, ?_⟩
  rintro ⟨e, he, hne, _⟩
  have h1 : (Manager.RerollReviewer storeOpenPR rndZero 1 4).1 = .error .ErrUserNotFound := rfl
  rw [h1] at he
  cases he
  exact hne rfl

/-- C7 as amended: on an OPEN stored pull request, for an oldReviewerID that is
not among its current reviewers, RerollReviewer fails with ErrUserNotFound (the
error value also used for a missing user) and returns the store unchanged. -/
theorem RerollReviewer_not_assigned (s : Store) (rnd : Nat → Nat) (prID oldReviewerID : Int)
    (pr : PullRequest) (hget : Repository.GetPRByID s prID = .ok pr)
    (hopen : pr.Status = PRStatusOpen)
    (hnot : oldReviewerID ∉ pr.Reviewers.map (fun r => r.ID)) :
    Manager.RerollReviewer s rnd prID oldReviewerID = (.error .ErrUserNotFound, s) := by
  have hany : (pr.Reviewers.any (fun r => r.ID == oldReviewerID)) = false := by
    simpa using hnot
  simp [Manager.RerollReviewer, hget, open_ne_merged hopen, hany]

/-- C7 as amended, at the OPEN pull request 1 of `TestRerollReviewer` and user 4,
who is not one of its reviewers. -/
theorem RerollReviewer_not_assigned_witness :
    Repository.GetPRByID storeReroll 1 = .ok loadedRerollPR ∧
      loadedRerollPR.Status = PRStatusOpen ∧
      (4 : Int) ∉ loadedRerollPR.Reviewers.map (fun r => r.ID) ∧
      Manager.RerollReviewer storeReroll rndZero 1 4 = (.error .ErrUserNotFound, storeReroll) :=
  ⟨rfl, rfl, by decide,
    RerollReviewer_not_assigned storeReroll rndZero 1 4 loadedRerollPR rfl rfl (by decide)⟩

/-- C9: for an OPEN stored pull request whose author is stored and an
oldReviewerID among its current reviewers, RerollReviewer fails with
ErrNoReviewersFound if and only if no stored user is active, in the author's
team, and different from the author, the old reviewer and every current
reviewer; when it fails this way the store is returned unchanged. -/
theorem RerollReviewer_no_eligible_iff (s : Store) (rnd : Nat → Nat)
    (prID oldReviewerID : Int) (pr : PullRequest) (author : User)
    (hget : Repository.GetPRByID s prID = .ok pr) (hopen : pr.Status = PRStatusOpen)
    (hold : oldReviewerID ∈ pr.Reviewers.map (fun r => r.ID))
    (ha : Repository.GetUserByID s pr.AuthorID = .ok author) :
    ((Manager.RerollReviewer s rnd prID oldReviewerID).1 = .error .ErrNoReviewersFound ↔
      ¬ ∃ u ∈ s.users, u.IsActive = true ∧ u.TeamID = author.TeamID ∧ u.ID ≠ pr.AuthorID ∧
          u.ID ≠ oldReviewerID ∧ u.ID ∉ pr.Reviewers.map (fun r => r.ID)) ∧
    ((Manager.RerollReviewer s rnd prID oldReviewerID).1 = .error .ErrNoReviewersFound →
      (Manager.RerollReviewer s rnd prID oldReviewerID).2 = s) := by
  have hmem : ∀ u : User,
      u ∈ Manager.availableCandidates pr oldReviewerID
            (Repository.GetUsersByTeam s author.TeamID) ↔
        (u ∈ s.users ∧ u.IsActive = true ∧ u.TeamID = author.TeamID ∧ u.ID ≠ pr.AuthorID ∧
          u.ID ≠ oldReviewerID ∧ u.ID ∉ pr.Reviewers.map (fun r => r.ID)) := by
    intro u
    constructor
    · intro hu
      obtain ⟨c1, c2, c3, c4⟩ := mem_availableCandidates hu
      simp only [Repository.GetUsersByTeam, List.mem_filter, Bool.and_eq_true, beq_iff_eq] at c1
      exact ⟨c1.1, c1.2.2, c1.2.1, c2, c3, c4⟩
    · rintro ⟨h1, h2, h3, h4, h5, h6⟩
      simp only [List.mem_map, not_exists, not_and] at h6
      simp only [Manager.availableCandidates, Repository.GetUsersByTeam, List.mem_filter,
        Bool.and_eq_true, beq_iff_eq, Bool.not_eq_true', beq_eq_false_iff_ne, ne_eq,
        List.contains_eq_any_beq, List.any_eq_false, List.mem_map, forall_exists_index,
        and_imp, forall_apply_eq_imp_iff₂, h1, h2, h3, h4, h5, not_false_eq_true, and_self,
        true_and]
      intro r hr he
      exact h6 r hr he.symm
  rcases RerollReviewer_open rnd hget (open_ne_merged hopen) hold ha with
    ⟨hnil, he⟩ | ⟨pr', hne, he⟩
  · rw [he]
    refine ⟨⟨fun _ => ?_, fun _ => rfl⟩, fun _ => rfl⟩
    rintro ⟨u, hu, hrest⟩
    have : u ∈ Manager.availableCandidates pr oldReviewerID
        (Repository.GetUsersByTeam s author.TeamID) := (hmem u).mpr ⟨hu, hrest⟩
    rw [hnil] at this
    simp at this
  · rw [he]
    refine ⟨⟨fun hc => by simp at hc, fun hno => ?_⟩, fun hc => by simp at hc⟩
    exfalso
    apply hno
    obtain ⟨u, hu⟩ := List.exists_mem_of_ne_nil _ hne
    exact ⟨u, ((hmem u).mp hu).1, ((hmem u).mp hu).2⟩

/-- C9 at the OPEN pull request 1 of `TestPRAssignmentAndMerge` and its reviewer
2: the only other user of the team is inactive, and the call fails with
ErrNoReviewersFound. -/
theorem RerollReviewer_no_eligible_iff_witness :
    Repository.GetPRByID storeOpenPR 1 = .ok loadedOpenPR ∧
      loadedOpenPR.Status = PRStatusOpen ∧
      (2 : Int) ∈ loadedOpenPR.Reviewers.map (fun r => r.ID) ∧
      Repository.GetUserByID storeOpenPR loadedOpenPR.AuthorID
        = .ok { ID := 1, Name := "Tony Stark", IsActive := true, TeamID := 1 } ∧
      (Manager.RerollReviewer storeOpenPR rndZero 1 2).1 = .error .ErrNoReviewersFound ∧
      ((Manager.RerollReviewer storeOpenPR rndZero 1 2).1 = .error .ErrNoReviewersFound ↔
        ¬ ∃ u ∈ storeOpenPR.users, u.IsActive = true ∧ u.TeamID = 1 ∧
            u.ID ≠ loadedOpenPR.AuthorID ∧ u.ID ≠ 2 ∧
            u.ID ∉ loadedOpenPR.Reviewers.map (fun r => r.ID)) ∧
      ((Manager.RerollReviewer storeOpenPR rndZero 1 2).1 = .error .ErrNoReviewersFound →
        (Manager.RerollReviewer storeOpenPR rndZero 1 2).2 = storeOpenPR) :=
  ⟨rfl, rfl, by decide, rfl, rfl,
    RerollReviewer_no_eligible_iff storeOpenPR rndZero 1 2 loadedOpenPR
      { ID := 1, Name := "Tony Stark", IsActive := true, TeamID := 1 } rfl rfl (by decide) rfl⟩

/-- C10: when RerollReviewer succeeds, the replacement Y it puts in the reviewer
list is a user stored at the time of the call, active, and of the team of the
pull request's stored author. -/
theorem RerollReviewer_replacement_active_teammate (s s' : Store) (rnd : Nat → Nat)
    (prID oldReviewerID : Int) (pr pr' : PullRequest)
    (hget : Repository.GetPRByID s prID = .ok pr)
    (h : Manager.RerollReviewer s rnd prID oldReviewerID = (.ok pr', s')) :
    ∃ author Y : User, Repository.GetUserByID s pr.AuthorID = .ok author ∧
      pr'.Reviewers = pr.Reviewers.map (fun r => if r.ID = oldReviewerID then Y else r) ∧
      Y ∈ pr'.Reviewers ∧
      Y ∈ s.users ∧ Y.IsActive = true ∧ Y.TeamID = author.TeamID := by
  obtain ⟨author, Y, _, ⟨r0, hr0, hrX⟩, ha, hY, rfl, rfl⟩ := RerollReviewer_ok_inv hget h
  obtain ⟨c1, _, _, _⟩ := mem_availableCandidates hY
  simp only [Repository.GetUsersByTeam, List.mem_filter, Bool.and_eq_true, beq_iff_eq] at c1
  refine ⟨author, Y, ha, ?_, ?_, c1.1, c1.2.2, c1.2.1⟩
  · simp [Manager.newReviewersList]
  · exact List.mem_map.mpr ⟨r0, hr0, by simp [hrX]⟩

/-- C10 at the scenario of `TestRerollReviewer`: the replacement is user 4, not
the deactivated user 5. -/
theorem RerollReviewer_replacement_active_teammate_witness :
    Repository.GetPRByID storeReroll 1 = .ok loadedRerollPR ∧
      Manager.RerollReviewer storeReroll rndZero 1 2
        = (.ok rerolledPR, Repository.UpdatePR storeReroll rerolledPR) ∧
      ∃ author Y : User, Repository.GetUserByID storeReroll loadedRerollPR.AuthorID = .ok author ∧
        rerolledPR.Reviewers = loadedRerollPR.Reviewers.map (fun r => if r.ID = 2 then Y else r) ∧
        Y ∈ rerolledPR.Reviewers ∧
        Y ∈ storeReroll.users ∧ Y.IsActive = true ∧ Y.TeamID = author.TeamID :=
  ⟨rfl, rfl,
    RerollReviewer_replacement_active_teammate storeReroll _ rndZero 1 2 loadedRerollPR
      rerolledPR rfl rfl⟩

/-- C13: an operation whose first load finds nothing fails with the matching
NotFound error and writes nothing. CreatePR with an author id that no stored
user has fails with ErrUserNotFound; MergePR and RerollReviewer with an id that
no stored pull request has fail with ErrPRNotFound; the store is returned
unchanged in all three cases. -/
theorem notFound_writes_nothing (s : Store) (rnd : Nat → Nat) (title : String)
    (authorID prID oldReviewerID : Int)
    (hu : ∀ u ∈ s.users, u.ID ≠ authorID) (hp : ∀ r ∈ s.prs, r.ID ≠ prID) :
    Manager.CreatePR s rnd title authorID = (.error .ErrUserNotFound, s) ∧
    Manager.MergePR s prID = (.error .ErrPRNotFound, s) ∧
    Manager.RerollReviewer s rnd prID oldReviewerID = (.error .ErrPRNotFound, s) := by
  have h1 : Repository.GetUserByID s authorID = .error .ErrUserNotFound := by
    unfold Repository.GetUserByID
    have : s.users.find? (fun u => u.ID == authorID) = none := by
      rw [List.find?_eq_none]
      intro u hmem
      simpa using hu u hmem
    rw [this]
  have h2 : Repository.GetPRByID s prID = .error .ErrPRNotFound := by
    unfold Repository.GetPRByID
    have : s.prs.find? (fun r => r.ID == prID) = none := by
      rw [List.find?_eq_none]
      intro r hmem
      simpa using hp r hmem
    rw [this]
  refine ⟨CreatePR_error h1 rnd title, ?_, ?_⟩
  · simp [Manager.MergePR, h2]
  · simp [Manager.RerollReviewer, h2]

/-- C13 at the store of `TestPRAssignmentAndMerge` after `CreatePR`, with user
id 9 and pull request id 9, which are not stored. -/
theorem notFound_writes_nothing_witness :
    (∀ u ∈ storeOpenPR.users, u.ID ≠ 9) ∧ (∀ r ∈ storeOpenPR.prs, r.ID ≠ 9) ∧
      Manager.CreatePR storeOpenPR rndZero "Ghost" 9 = (.error .ErrUserNotFound, storeOpenPR) ∧
      Manager.MergePR storeOpenPR 9 = (.error .ErrPRNotFound, storeOpenPR) ∧
      Manager.RerollReviewer storeOpenPR rndZero 9 2 = (.error .ErrPRNotFound, storeOpenPR) :=
  ⟨by decide, by decide,
    notFound_writes_nothing storeOpenPR rndZero "Ghost" 9 9 2 (by decide) (by decide)⟩

/-- C14: for candidates with pairwise-distinct ids, every k and every outcome of
the shuffle, selectRandomReviewers returns exactly min(k, len(users)) users, all
of them among the candidates, with pairwise-distinct ids; when len(users) <= k
it returns the candidates themselves, and for no candidates it returns the
empty list. -/
theorem selectRandomReviewers_spec (rnd : Nat → Nat) (users : List User) (k : Nat)
    (hd : (users.map (fun u => u.ID)).Nodup) :
    (selectRandomReviewers rnd users k).length = min k users.length ∧
    (∀ u ∈ selectRandomReviewers rnd users k, u ∈ users) ∧
    ((selectRandomReviewers rnd users k).map (fun u => u.ID)).Nodup ∧
    (selectRandomReviewers rnd users k).Nodup ∧
    (users.length ≤ k → selectRandomReviewers rnd users k = users) ∧
    selectRandomReviewers rnd [] k = [] := by
  have hids := selectRandomReviewers_nodup_ids rnd users k hd
  refine ⟨selectRandomReviewers_length rnd users k,
    fun u hu => selectRandomReviewers_subset rnd users k hu, hids,
    List.Nodup.of_map _ hids, ?_, selectRandomReviewers_nil rnd k⟩
  intro hle
  simp [selectRandomReviewers, hle]

/-- C14 at the three candidates of `TestMassDeactivate` with k = 2 and the
shuffle driven by constant draws 0: two distinct candidates are returned. -/
theorem selectRandomReviewers_spec_witness :
    (candidatesMass.map (fun u => u.ID)).Nodup ∧
      (selectRandomReviewers rndZero candidatesMass 2).map (fun u => u.ID) = [3, 4] ∧
      ((selectRandomReviewers rndZero candidatesMass 2).length = min 2 candidatesMass.length ∧
       (∀ u ∈ selectRandomReviewers rndZero candidatesMass 2, u ∈ candidatesMass) ∧
       ((selectRandomReviewers rndZero candidatesMass 2).map (fun u => u.ID)).Nodup ∧
       (selectRandomReviewers rndZero candidatesMass 2).Nodup ∧
       (candidatesMass.length ≤ 2 → selectRandomReviewers rndZero candidatesMass 2
          = candidatesMass) ∧
       selectRandomReviewers rndZero [] 2 = []) :=
  ⟨by decide, by decide, selectRandomReviewers_spec rndZero candidatesMass 2 (by decide)⟩

/-- C15: deactivation is idempotent. For a stored user, active or not,
DeleteUser succeeds; it leaves every user of that id inactive and every other
user, every team and every pull request as they were; and a second DeleteUser on
the store it leaves returns no error and that same store. -/
theorem DeleteUser_idempotent (s : Store) (userID : Int)
    (h : ∃ u ∈ s.users, u.ID = userID) :
    ∃ s1, Manager.DeleteUser s userID = (.ok (), s1) ∧
      Manager.DeleteUser s1 userID = (.ok (), s1) ∧
      (∀ u ∈ s1.users, u.ID = userID → u.IsActive = false) ∧
      s1.users = s.users.map (fun u => if u.ID = userID then { u with IsActive := false } else u) ∧
      s1.teams = s.teams ∧ s1.prs = s.prs ∧
      s1.nextTeamID = s.nextTeamID ∧ s1.nextUserID = s.nextUserID ∧
      s1.nextPRID = s.nextPRID := by
  have hany : (s.users.any (fun u => u.ID == userID)) = true := by
    simpa using h
  have hany1 : ((s.users.map (fun u =>
      if u.ID == userID then { u with IsActive := false } else u)).any
        (fun u => u.ID == userID)) = true := by
    obtain ⟨u, hu, hid⟩ := h
    rw [List.any_eq_true]
    refine ⟨_, List.mem_map.mpr ⟨u, hu, rfl⟩, ?_⟩
    simp [hid]
  have hidem : (s.users.map (fun u =>
      if u.ID == userID then { u with IsActive := false } else u)).map (fun u =>
      if u.ID == userID then { u with IsActive := false } else u)
      = s.users.map (fun u => if u.ID == userID then { u with IsActive := false } else u) := by
    rw [List.map_map]
    apply List.map_congr_left
    intro u _
    simp only [Function.comp]
    by_cases hu : u.ID = userID
    · simp [hu]
    · simp [hu]
  refine ⟨{ s with users := s.users.map (fun u =>
      if u.ID == userID then { u with IsActive := false } else u) }, ?_, ?_, ?_, ?_,
      rfl, rfl, rfl, rfl, rfl⟩
  · simp only [Manager.DeleteUser, Repository.DeactivateUser, hany, if_true]
  · simp only [Manager.DeleteUser, Repository.DeactivateUser, hany1, if_true, hidem]
  · intro u hu hid
    obtain ⟨v, _, rfl⟩ := List.mem_map.mp hu
    by_cases hv : v.ID = userID
    · simp [hv]
    · simp only [beq_iff_eq, hv, if_false] at hid
  · apply List.map_congr_left
    intro u _
    simp only [beq_iff_eq]

/-- C15 at user 4 of `TestPRAssignmentAndMerge`, who is already inactive. -/
theorem DeleteUser_idempotent_witness :
    (∃ u ∈ storeAssignment.users, u.ID = 4 ∧ u.IsActive = false) ∧
      ∃ s1, Manager.DeleteUser storeAssignment 4 = (.ok (), s1) ∧
        Manager.DeleteUser s1 4 = (.ok (), s1) ∧ s1 = storeAssignment := by
  refine ⟨by decide, ?_⟩
  obtain ⟨s1, h1, h2, _⟩ :=
    DeleteUser_idempotent storeAssignment 4 (by decide)
  refine ⟨s1, h1, h2, ?_⟩
  have h3 : Manager.DeleteUser storeAssignment 4 = (.ok (), storeAssignment) := rfl
  rw [h3] at h1
  exact (Prod.mk.inj h1).2.symm

/-- C16: handleServiceError answers the user-, team- and PR-not-found errors
with not-found (404), the already-merged and no-eligible-reviewers errors with
conflict (409), and every other error with internal error (500). -/
theorem handleServiceError_classes :
    (handleServiceError .ErrUserNotFound).status = 404 ∧
    (handleServiceError .ErrTeamNotFound).status = 404 ∧
    (handleServiceError .ErrPRNotFound).status = 404 ∧
    (handleServiceError .ErrPRAlreadyMerged).status = 409 ∧
    (handleServiceError .ErrNoReviewersFound).status = 409 ∧
    (∀ e : Error, e ≠ .ErrUserNotFound → e ≠ .ErrTeamNotFound → e ≠ .ErrPRNotFound →
      e ≠ .ErrPRAlreadyMerged → e ≠ .ErrNoReviewersFound →
      (handleServiceError e).status = 500) ∧
    (∀ e : Error, (handleServiceError e).status = 404 ∨ (handleServiceError e).status = 409 ∨
      (handleServiceError e).status = 500) := by
  refine ⟨rfl, rfl, rfl, rfl, rfl, ?_, ?_⟩
  · intro e h1 h2 h3 h4 h5
    cases e <;> first | rfl | contradiction
  · intro e
    cases e <;> simp [handleServiceError, StatusNotFound, StatusConflict,
      StatusInternalServerError]

/-- C17: CreateUser of the service is the repository insert of a user with the
given name, the given team id and the active flag set, whatever the lookup
`GetTeamByName` returns; so it succeeds exactly when the insert succeeds, a
created user has the given name and team id, is active and is stored, and the
error ErrTeamNotFound of the lookup is never returned. -/
theorem CreateUser_ignores_lookup (s : Store) (name : String) (teamID : Int) :
    Manager.CreateUser s name teamID
      = Repository.CreateUser s { ID := 0, Name := name, IsActive := true, TeamID := teamID } ∧
    (∀ u s', Manager.CreateUser s name teamID = (.ok u, s') →
      u.Name = name ∧ u.TeamID = teamID ∧ u.IsActive = true ∧ u ∈ s'.users) ∧
    (Manager.CreateUser s name teamID).1 ≠ .error .ErrTeamNotFound ∧
    ((∃ t ∈ s.teams, t.ID = teamID) → ∃ u s', Manager.CreateUser s name teamID = (.ok u, s')) := by
  refine ⟨rfl, ?_, ?_, ?_⟩
  · intro u s' h
    simp only [Manager.CreateUser, Repository.CreateUser] at h
    split at h
    · simp only [Prod.mk.injEq, Except.ok.injEq] at h
      obtain ⟨rfl, rfl⟩ := h
      simp
    · simp at h
  · simp only [Manager.CreateUser, Repository.CreateUser]
    split <;> simp
  · intro ht
    have hany : (s.teams.any (fun t => t.ID == teamID)) = true := by
      simpa using ht
    simp only [Manager.CreateUser, Repository.CreateUser, hany, if_true]
    exact ⟨_, _, rfl⟩

/-- C17 at the store of `TestPRAssignmentAndMerge`: the lookup of the team named
"" fails with ErrTeamNotFound, and CreateUser for the stored team 1 succeeds all
the same. -/
theorem CreateUser_ignores_lookup_witness :
    Repository.GetTeamByName storeAssignment "" = .error .ErrTeamNotFound ∧
      (∃ t ∈ storeAssignment.teams, t.ID = 1) ∧
      ∃ u s', Manager.CreateUser storeAssignment "Peter Parker" 1 = (.ok u, s') :=
  ⟨rfl, by decide,
    (CreateUser_ignores_lookup storeAssignment "Peter Parker" 1).2.2.2 (by decide)⟩

end Avito
